import Mathlib

/-!
Shallow embedding of the Financial-Times/kafka consumergroup package
(src/consumergroup/consumer_group.go) and proofs about the behaviour of its
configuration validation, partition assignment, partition-claim retry loop,
broker stream opening, message forwarding, and shutdown path.

Go durations are `int64` nanoseconds; Go integer division truncates toward
zero, which on `Int` is `Int.tdiv`.  Most state-passing code is modelled as
functions from explicit environments (outcomes of the external calls the code
makes) to a result together with a list of observable events, in program
order.
-/

namespace FTKafka

/-- Sarama sentinel offset: start at the newest available offset
(`sarama.OffsetNewest = -1`). -/
def OffsetNewest : Int := -1

/-- Sarama sentinel offset: start at the oldest available offset
(`sarama.OffsetOldest = -2`). -/
def OffsetOldest : Int := -2

/-- One second in nanoseconds (`time.Second` as a Go `time.Duration`). -/
def timeSecond : Int := 1000000000

/-- Errors observable in the modelled code paths.  Sentinel errors the code
compares against by identity (`sarama.ErrOffsetOutOfRange`,
`kazoo.ErrPartitionClaimedByOther`, `AlreadyClosing`) get their own
constructors; configuration errors and all other Go errors carry their
message. -/
inductive GoError
  | errOffsetOutOfRange
  | errPartitionClaimedByOther
  | alreadyClosing
  | configurationError (msg : String)
  | other (msg : String)
deriving DecidableEq, Repr

/-- The consumergroup `Config` fields read by the modelled code:
`Offsets.Initial`, `Offsets.ProcessingTimeout`, `Offsets.CommitInterval`,
`Zookeeper.Timeout`, plus the embedded `sarama.Config` abstracted to the
outcome of its own `Validate` call (`none` when the embedded config is nil or
valid). -/
structure Config where
  initial : Int
  processingTimeout : Int
  commitInterval : Int
  zookeeperTimeout : Int
  saramaValidateError : Option GoError
deriving DecidableEq, Repr

/-- `Config.Validate` (consumer_group.go lines 45-65): checks the Zookeeper
session timeout, the commit interval, the initial-offset policy, and finally
the embedded sarama configuration.  Returns the error, or `none` on success. -/
def Config.validate (cgc : Config) : Option GoError :=
  if cgc.zookeeperTimeout ≤ 0 then
    some (.configurationError "ZookeeperTimeout should have a duration > 0")
  else if cgc.commitInterval < 0 then
    some (.configurationError "CommitInterval should have a duration >= 0")
  else if cgc.initial ≠ OffsetOldest ∧ cgc.initial ≠ OffsetNewest then
    some (.other "Offsets.Initial should be sarama.OffsetOldest or sarama.OffsetNewest.")
  else
    cgc.saramaValidateError

/-- `NewConfig` defaults (consumer_group.go lines 34-43).  The Zookeeper
session timeout default comes from the kazoo dependency (one second), not from
this repository. -/
def NewConfig : Config :=
  { initial := OffsetOldest
    processingTimeout := 60 * timeSecond
    commitInterval := 10 * timeSecond
    zookeeperTimeout := timeSecond
    saramaValidateError := none }

/-- The claim-retry budget computed at the top of `partitionConsumer`
(line 496): `int(cg.config.Offsets.ProcessingTimeout/time.Second) + 2`.
Division of two Go `int64` durations truncates toward zero (`Int.tdiv`). -/
def maxRetries (cfg : Config) : Int :=
  Int.tdiv cfg.processingTimeout timeSecond + 2

/-- Ceiling of a nonnegative duration in whole seconds; used only to state
what the spec claims the retry budget is. -/
def ceilSeconds (d : Int) : Int :=
  Int.tdiv (d + (timeSecond - 1)) timeSecond

/-- A broker client for one (topic, partition):
`cg.consumer.ConsumePartition(topic, partition, offset)` abstracted to a
function from the requested offset to an error or a stream handle. -/
abbrev Broker := Int → Except GoError Nat

/-- `consumePartition` (consumer_group.go lines 464-486): open the partition
stream at `nextOffset`; if and only if that fails with the offset-out-of-range
sentinel, retry exactly once at `OffsetOldest` when `Offsets.Initial` is
`OffsetOldest` and at `OffsetNewest` otherwise; return any other error.
The second component records the offsets at which `ConsumePartition` was
attempted, in order. -/
def consumePartition (broker : Broker) (initial : Int) (nextOffset : Int) :
    Except GoError Nat × List Int :=
  match broker nextOffset with
  | .ok c => (.ok c, [nextOffset])
  | .error e =>
    if e = .errOffsetOutOfRange then
      let adjusted := if initial = OffsetOldest then OffsetOldest else OffsetNewest
      (broker adjusted, [nextOffset, adjusted])
    else
      (.error e, [nextOffset])

/-- Offset selection after `InitializePartition` returns (consumer_group.go
lines 542-551): a value `>= 0` is used as the resume position, a negative
value falls back to the configured `Offsets.Initial` policy. -/
def selectNextOffset (cfg : Config) (storedOffset : Int) : Int :=
  if 0 ≤ storedOffset then storedOffset else cfg.initial

/-- Observable events emitted by the worker code, in program order.  A send on
the shared `messages`/`errors` channels records whether the send statement is
wrapped in a `select` against the generation context (`guarded = true`) or is
a plain channel send (`guarded = false`). -/
inductive Event
  | wait1s
  | claimAttempt (tries : Nat)
  | logged
  | sendErr (guarded : Bool) (topic : String) (partition : Int) (e : GoError)
  | sendMsg (guarded : Bool) (offset : Int)
  | released
  | openAttempt (offset : Int)
  | streamClosed
  | finalized (lastOffset : Int)
  | cancelCalled
deriving DecidableEq, Repr

/-- Is this event a send on the shared `messages` or `errors` channel? -/
def Event.isSend : Event → Bool
  | .sendErr _ _ _ _ => true
  | .sendMsg _ _ => true
  | _ => false

/-- Is this event a send performed inside a `select` on the generation
context? -/
def Event.isGuardedSend : Event → Bool
  | .sendErr g _ _ _ => g
  | .sendMsg g _ => g
  | _ => false

/-- Is this event a `ConsumePartition` attempt? -/
def Event.isOpen : Event → Bool
  | .openAttempt _ => true
  | _ => false

/-- Outcome of one `cg.instance.ClaimPartition` call. -/
inductive ClaimOutcome
  | ok
  | claimedByOther
  | otherError (msg : String)
deriving DecidableEq, Repr

/-- The Go error value carried by a failed claim outcome. -/
def ClaimOutcome.err : ClaimOutcome → GoError
  | .ok => .other "no error"
  | .claimedByOther => .errPartitionClaimedByOther
  | .otherError m => .other m

/-- How the partition claim loop ended. -/
inductive ClaimPhaseResult
  | claimed
  | cancelled
  | gaveUp (e : GoError)
deriving DecidableEq, Repr

/-- Result of the claim phase: how it ended, how many `ClaimPartition` calls
were made, and the events it emitted. -/
structure ClaimPhaseOut where
  result : ClaimPhaseResult
  attempts : Nat
  events : List Event
deriving DecidableEq, Repr

/-- The partition claim loop of `partitionConsumer` (consumer_group.go lines
497-522), with the remaining iteration count made explicit so the recursion is
structural: `claimLoopGo gas tries` runs the loop body for iterations `tries`,
`tries+1`, ... while `gas` iterations remain (`gas = maxRetries - tries`).
`claim t` is the outcome of `ClaimPartition` on iteration `t`; `ctxDone t`
says whether the select at the top of iteration `t` observes the generation
context as cancelled (in which case the worker returns).  Each executed
attempt is preceded by a one-second wait (`time.After(1 * time.Second)`).
A non-final failure retries: silently when the error is
`ErrPartitionClaimedByOther`, after logging otherwise (the test
`tries + 1 < maxRetries` in the source is `0 < gas` here).  A final failure
logs and performs a plain (unguarded) send of a `ConsumerError` carrying the
topic and partition on `cg.errors`, then returns. -/
def claimLoopGo (claim : Nat → ClaimOutcome) (ctxDone : Nat → Bool)
    (topic : String) (partition : Int) : Nat → Nat → ClaimPhaseOut
  | 0, _ => ⟨.claimed, 0, []⟩
  | gas + 1, tries =>
    if ctxDone tries then ⟨.cancelled, 0, []⟩
    else
      match claim tries with
      | .ok => ⟨.claimed, 1, [.wait1s, .claimAttempt tries]⟩
      | outcome =>
        if 0 < gas then
          let rest := claimLoopGo claim ctxDone topic partition gas (tries + 1)
          ⟨rest.result, rest.attempts + 1,
            [Event.wait1s, Event.claimAttempt tries] ++
              (if outcome = .claimedByOther then [] else [Event.logged]) ++ rest.events⟩
        else
          ⟨.gaveUp outcome.err, 1,
            [.wait1s, .claimAttempt tries, .logged,
              .sendErr false topic partition outcome.err]⟩

/-- The claim loop started from iteration `tries` with upper bound `maxR`
(the loop in the source runs while `tries < maxRetries`). -/
def claimLoopFrom (claim : Nat → ClaimOutcome) (ctxDone : Nat → Bool)
    (topic : String) (partition : Int) (maxR tries : Nat) : ClaimPhaseOut :=
  claimLoopGo claim ctxDone topic partition (maxR - tries) tries

/-- One wake-up of the select in the `partitionConsumer` main loop
(consumer_group.go lines 564-618): the generation context is done, a value
(possibly the nil sentinel) arrives on the stream's error channel, or a value
(possibly the nil sentinel) arrives on the stream's message channel.  For the
two forwarding cases, `ctxDuringSend` says whether the nested select observes
the context cancellation instead of completing the send. -/
inductive LoopStep
  | ctxDone
  | errEvent (e : Option GoError) (ctxDuringSend : Bool)
  | msgEvent (offset : Option Int) (ctxDuringSend : Bool)
deriving DecidableEq, Repr

/-- Result of driving the main loop on a finite schedule: emitted events, the
final `lastOffset`, and whether `partitionConsumerLoop` was actually exited
(`ended = false` means the schedule ran out with the loop still live). -/
structure MainLoopOut where
  events : List Event
  lastOffset : Int
  ended : Bool
deriving DecidableEq, Repr

/-- The `partitionConsumer` main loop (consumer_group.go lines 562-618) driven
by a schedule of select outcomes, starting from a given `lastOffset`
(initially -1 in the source).  A nil sentinel on either stream channel
reconnects through `consumePartition` at `lastOffset` and breaks the loop if
that fails.  A real error or message is forwarded to the shared channel inside
a nested select on the generation context (`guarded = true`); a successful
message forward updates `lastOffset`. -/
def mainLoop (broker : Broker) (initial : Int) (topic : String)
    (partition : Int) : List LoopStep → Int → MainLoopOut
  | [], last => ⟨[], last, false⟩
  | step :: rest, last =>
    match step with
    | .ctxDone => ⟨[], last, true⟩
    | .errEvent none _ =>
      let reopened := consumePartition broker initial last
      let opens := reopened.2.map Event.openAttempt
      match reopened.1 with
      | .error _ => ⟨opens, last, true⟩
      | .ok _ =>
        let out := mainLoop broker initial topic partition rest last
        ⟨opens ++ out.events, out.lastOffset, out.ended⟩
    | .errEvent (some e) ctxDuring =>
      if ctxDuring then ⟨[], last, true⟩
      else
        let out := mainLoop broker initial topic partition rest last
        ⟨Event.sendErr true topic partition e :: out.events, out.lastOffset, out.ended⟩
    | .msgEvent none _ =>
      let reopened := consumePartition broker initial last
      let opens := reopened.2.map Event.openAttempt
      match reopened.1 with
      | .error _ => ⟨opens, last, true⟩
      | .ok _ =>
        let out := mainLoop broker initial topic partition rest last
        ⟨opens ++ out.events, out.lastOffset, out.ended⟩
    | .msgEvent (some off) ctxDuring =>
      if ctxDuring then ⟨[], last, true⟩
      else
        let out := mainLoop broker initial topic partition rest off
        ⟨Event.sendMsg true off :: out.events, out.lastOffset, out.ended⟩

/-- Events of the deferred `ReleasePartition` handler (consumer_group.go lines
524-534): the release itself, then on failure a log and a plain (unguarded)
send of a `ConsumerError` on `cg.errors`. -/
def releaseEvents (topic : String) (partition : Int) : Option GoError → List Event
  | none => [.released]
  | some e => [.released, .logged, .sendErr false topic partition e]

/-- Environment of one `partitionConsumer` worker: the configuration, the
(topic, partition) it owns, the outcomes of its external calls
(`ClaimPartition` per attempt, context observation per attempt,
`ReleasePartition`, `InitializePartition`, `ConsumePartition`), and the main
loop schedule. -/
structure PCEnv where
  cfg : Config
  topic : String
  partition : Int
  claim : Nat → ClaimOutcome
  ctxDoneClaim : Nat → Bool
  releaseError : Option GoError
  initOffsetResult : Except GoError Int
  broker : Broker
  steps : List LoopStep

/-- How a `partitionConsumer` run ended. -/
inductive PCExit
  | cancelledDuringClaim
  | claimGaveUp
  | initFailed
  | openFailed
  | loopEnded
  | pending
deriving DecidableEq, Repr

/-- Result of one `partitionConsumer` run. -/
structure PCOut where
  exit : PCExit
  events : List Event
deriving DecidableEq, Repr

/-- `partitionConsumer` (consumer_group.go lines 489-624).  The claim loop
runs first; returning from inside it (context cancelled, or final attempt
failed) happens before the `ReleasePartition` defer is registered at line 524,
so no release occurs on those paths.  After a successful claim the deferred
release runs on every exit.  Then `InitializePartition`, offset selection,
`consumePartition`, the main loop, and on a broken loop the final
`FinalizePartition` followed by the deferred stream close and release (defers
run last-registered first). -/
def partitionConsumerRun (env : PCEnv) : PCOut :=
  let maxR := (maxRetries env.cfg).toNat
  let cp := claimLoopFrom env.claim env.ctxDoneClaim env.topic env.partition maxR 0
  match cp.result with
  | .cancelled => ⟨.cancelledDuringClaim, cp.events⟩
  | .gaveUp _ => ⟨.claimGaveUp, cp.events⟩
  | .claimed =>
    let rel := releaseEvents env.topic env.partition env.releaseError
    match env.initOffsetResult with
    | .error _ => ⟨.initFailed, cp.events ++ [Event.logged] ++ rel⟩
    | .ok stored =>
      let nextOffset := selectNextOffset env.cfg stored
      let opened := consumePartition env.broker env.cfg.initial nextOffset
      let opens := opened.2.map Event.openAttempt
      match opened.1 with
      | .error _ => ⟨.openFailed, cp.events ++ opens ++ [Event.logged] ++ rel⟩
      | .ok _ =>
        let ml := mainLoop env.broker env.cfg.initial env.topic env.partition env.steps (-1)
        if ml.ended then
          ⟨.loopEnded, cp.events ++ opens ++ ml.events ++
            [Event.finalized ml.lastOffset, Event.streamClosed] ++ rel⟩
        else
          ⟨.pending, cp.events ++ opens ++ ml.events⟩

/-- Size of the first of `m` fair contiguous slices of a list of length `n`:
the ceiling of `n / m`. -/
def fairSize (n m : Nat) : Nat :=
  n / m + (if n % m = 0 then 0 else 1)

/-- Modelled from the spec: the partition assigner
`dividePartitionsBetweenConsumers` is called from `topicConsumer`
(consumer_group.go line 449) but its definition is not among the provided
source files.  Following spec section 4.3, the ordered partition list is split
into `m` contiguous slices whose sizes differ by at most one; slice `k` is
assigned to the `k`-th instance ID. -/
def divideSlices {α : Type} (P : List α) : Nat → List (List α)
  | 0 => []
  | m + 1 =>
    P.take (fairSize P.length (m + 1)) ::
      divideSlices (P.drop (fairSize P.length (m + 1))) m

/-- Modelled from the spec: the assignment one instance reads out of the
assigner's result (`dividedPartitions[cg.instanceID]`, consumer_group.go line
450) — the slice at the instance's position in the ordered consumer list,
empty when the instance is not in the list. -/
def dividePartitionsBetweenConsumers {α : Type} [DecidableEq α]
    (consumers : List String) (partitions : List α) (instanceID : String) :
    List α :=
  (divideSlices partitions consumers.length).getD (consumers.indexOf instanceID) []

/-- Environment of one `topicConsumer` worker: whether the generation context
is already done at entry, and the outcomes of the partition-list and
partition-leader queries; `consumers` is the registered-instance snapshot and
`instanceID` this instance's ID. -/
structure TCEnv where
  ctxDone : Bool
  topic : String
  partitionsResult : Except GoError (List Int)
  leadersResult : List Int → Except GoError (List (Int × Int))
  consumers : List String
  instanceID : String

/-- How a `topicConsumer` run ended. -/
inductive TCExit
  | cancelledEarly
  | partitionsFailed
  | leadersFailed
  | spawned (myPartitions : List (Int × Int))
deriving DecidableEq, Repr

/-- Result of one `topicConsumer` run. -/
structure TCOut where
  exit : TCExit
  events : List Event
deriving DecidableEq, Repr

/-- `topicConsumer` (consumer_group.go lines 413-462) up to the spawning of
its partition consumers.  Both query-failure paths perform a plain (unguarded)
send of a `ConsumerError` with partition -1 on `cg.errors` and then cancel the
generation. -/
def topicConsumerRun (env : TCEnv) : TCOut :=
  if env.ctxDone then ⟨.cancelledEarly, []⟩
  else
    match env.partitionsResult with
    | .error e => ⟨.partitionsFailed, [.sendErr false env.topic (-1) e, .cancelCalled]⟩
    | .ok parts =>
      match env.leadersResult parts with
      | .error e => ⟨.leadersFailed, [.sendErr false env.topic (-1) e, .cancelCalled]⟩
      | .ok leaders =>
        ⟨.spawned (dividePartitionsBetweenConsumers env.consumers leaders env.instanceID), []⟩

/-- Observable steps of the `Close` shutdown path, in program order. -/
inductive CloseEvent
  | stopperClosedUnderMutex
  | waitGroupJoined
  | offsetManagerClosed
  | instanceDeregistered
  | brokerConsumerClosed
  | messagesChanClosed
  | errorsChanClosed
  | instanceSetNil
  | kazooClosed
deriving DecidableEq, Repr

/-- State of a `ConsumerGroup` relevant to `Close`: whether the
`sync.Once` guarding shutdown has been consumed, the flags the shutdown sets,
and the outcomes of the external close calls it makes. -/
structure CGState where
  shutdownUsed : Bool
  stopperClosed : Bool
  messagesClosed : Bool
  errorsClosed : Bool
  instanceNil : Bool
  offsetMgrCloseError : Option GoError
  deregisterError : Option GoError
  consumerCloseError : Option GoError
deriving DecidableEq, Repr

/-- `Close` (consumer_group.go lines 282-316).  A call that finds the
`sync.Once` consumed does nothing and returns the `AlreadyClosing` sentinel.
The first call closes the stopper under the mutex, joins the top-level
wait-group, closes the offset manager, deregisters the instance, closes the
sarama consumer, closes the `messages` and `errors` channels, nils the
instance handle, and — via the defer at line 285 — closes the kazoo client
last.  The returned error is the result of `cg.consumer.Close()` (line 306
overwrites any deregistration error). -/
def closeRun (s : CGState) : CGState × Option GoError × List CloseEvent :=
  if s.shutdownUsed then (s, some .alreadyClosing, [])
  else
    ({ s with
        shutdownUsed := true
        stopperClosed := true
        messagesClosed := true
        errorsClosed := true
        instanceNil := true },
      s.consumerCloseError,
      [.stopperClosedUnderMutex, .waitGroupJoined, .offsetManagerClosed,
        .instanceDeregistered, .brokerConsumerClosed, .messagesChanClosed,
        .errorsChanClosed, .instanceSetNil, .kazooClosed])

/-- `n` successive calls to `Close` on the same `ConsumerGroup`: the final
state together with the (returned error, emitted events) of each call, in
order. -/
def closeCalls : Nat → CGState → CGState × List (Option GoError × List CloseEvent)
  | 0, s => (s, [])
  | n + 1, s =>
    let r := closeRun s
    let rest := closeCalls n r.1
    (rest.1, (r.2.1, r.2.2) :: rest.2)

deriving instance DecidableEq for Except

/-- Result of `JoinConsumerGroup`: the returned error (an `Except.error` means
the returned `ConsumerGroup` pointer is nil), whether a constructor ran (all
metadata-store and broker I/O and goroutine spawning of the start sequence
happen inside `DefaultConsumerGroup` or the injected constructor), and whether
`go cg.topicListConsumer(topics)` was reached. -/
structure JoinOutcome where
  result : Except GoError Unit
  ioPerformed : Bool
  goroutineSpawned : Bool
deriving DecidableEq, Repr

/-- `JoinConsumerGroup` (consumer_group.go lines 225-266).  The empty-name,
empty-topic-list and empty-endpoint-list checks run first; a nil config is
replaced by `NewConfig` and `config.ClientID` is overwritten with the group
name (not observable here); then `config.Validate()` runs.  Only then is the
variadic constructor list examined: zero or one constructor is invoked
(`constructorResult` abstracts its outcome), more than one returns an error
without invoking anything; the top-level loop goroutine is spawned only after
a constructor succeeded. -/
def joinConsumerGroup (name : String) (topics zookeeper : List String)
    (config : Option Config) (constructorCount : Nat)
    (constructorResult : Except GoError Unit) : JoinOutcome :=
  if name = "" then
    ⟨.error (.configurationError "Empty consumergroup name"), false, false⟩
  else if topics.isEmpty then
    ⟨.error (.configurationError "No topics provided"), false, false⟩
  else if zookeeper.isEmpty then
    ⟨.error (.other "you need to provide at least one zookeeper node address"), false, false⟩
  else
    let cfg := config.getD NewConfig
    match cfg.validate with
    | some e => ⟨.error e, false, false⟩
    | none =>
      match constructorCount with
      | 0 =>
        match constructorResult with
        | .error e => ⟨.error e, true, false⟩
        | .ok _ => ⟨.ok (), true, true⟩
      | 1 =>
        match constructorResult with
        | .error e => ⟨.error e, true, false⟩
        | .ok _ => ⟨.ok (), true, true⟩
      | _ + 2 =>
        ⟨.error (.other "more than one cgConstructor is not supported"), false, false⟩

/-- Did `JoinConsumerGroup` return an error (and hence a nil `ConsumerGroup`
pointer)? -/
def JoinOutcome.failed (j : JoinOutcome) : Bool :=
  match j.result with
  | .error _ => true
  | .ok _ => false

/-- Example configuration with a zero processing timeout (claim retry budget
2), used to instantiate theorems with hypotheses. -/
def cfg0 : Config :=
  { initial := OffsetOldest
    processingTimeout := 0
    commitInterval := 0
    zookeeperTimeout := timeSecond
    saramaValidateError := none }

/-- Configuration whose `ProcessingTimeout` is 1.5 seconds, not a whole
multiple of one second. -/
def cfg15 : Config :=
  { cfg0 with processingTimeout := 1500000000 }

/-- A configuration that fails validation: negative commit interval. -/
def cfgBadInterval : Config :=
  { NewConfig with commitInterval := -1 }

/-- A broker that accepts every requested offset. -/
def brokerAlwaysOk : Broker := fun _ => .ok 1

/-- A broker that reports offset-out-of-range at offset 5 and accepts any
other offset. -/
def brokerOor5 : Broker := fun off =>
  if off = 5 then .error .errOffsetOutOfRange else .ok 1

/-- A broker that always fails with a non-sentinel error. -/
def brokerDown : Broker := fun _ => .error (.other "broker down")

/-- `topicConsumer` environment in which the partition-list query fails. -/
def tcEnvZkErr : TCEnv :=
  { ctxDone := false
    topic := "t"
    partitionsResult := .error (.other "zk down")
    leadersResult := fun _ => .ok []
    consumers := ["a"]
    instanceID := "a" }

/-- `partitionConsumer` environment: claim succeeds at once, stored offset 0,
broker accepts, one message is forwarded, then the generation is cancelled. -/
def pcEnvResume0 : PCEnv :=
  { cfg := cfg0
    topic := "t"
    partition := 3
    claim := fun _ => .ok
    ctxDoneClaim := fun _ => false
    releaseError := none
    initOffsetResult := .ok 0
    broker := brokerAlwaysOk
    steps := [.msgEvent (some 0) false, .ctxDone] }

/-- `partitionConsumer` environment in which every claim attempt fails with an
unexpected error, so the claim phase exhausts its budget and gives up. -/
def pcEnvGaveUp : PCEnv :=
  { cfg := cfg0
    topic := "t"
    partition := 3
    claim := fun _ => .otherError "boom"
    ctxDoneClaim := fun _ => false
    releaseError := none
    initOffsetResult := .ok 0
    broker := brokerAlwaysOk
    steps := [.ctxDone] }

/-- `partitionConsumer` environment whose broker rejects every offset, so the
stream-open phase fails after the claim succeeded. -/
def pcEnvOpenFail : PCEnv :=
  { cfg := cfg0
    topic := "t"
    partition := 3
    claim := fun _ => .ok
    ctxDoneClaim := fun _ => false
    releaseError := none
    initOffsetResult := .ok 7
    broker := brokerDown
    steps := [.ctxDone] }

/-- A claim oracle that always reports the partition as claimed by another
instance. -/
def claimAlwaysOther : Nat → ClaimOutcome := fun _ => .claimedByOther

/-- A claim oracle that always fails with an unexpected error. -/
def claimAlwaysErr : Nat → ClaimOutcome := fun _ => .otherError "boom"

/-- A generation context that is never cancelled. -/
def noCancel : Nat → Bool := fun _ => false

/-- A fresh (never closed) `ConsumerGroup` state whose external close calls
all succeed. -/
def cgFresh : CGState :=
  { shutdownUsed := false
    stopperClosed := false
    messagesClosed := false
    errorsClosed := false
    instanceNil := false
    offsetMgrCloseError := none
    deregisterError := none
    consumerCloseError := none }

/-- The first fair slice is never longer than the list. -/
lemma fairSize_le {n m : Nat} (hm : 0 < m) : fairSize n m ≤ n := by
  have hd := Nat.div_add_mod n m
  have h1 : n / m ≤ m * (n / m) := Nat.le_mul_of_pos_left _ hm
  unfold fairSize
  split <;> omega

/-- What remains after removing the first fair slice, expressed through the
quotient and remainder of the original length. -/
lemma sub_fairSize (n m : Nat) :
    n - fairSize n (m + 1) = m * (n / (m + 1)) + (n % (m + 1) - 1) := by
  have hd := Nat.div_add_mod n (m + 1)
  have hexp : (m + 1) * (n / (m + 1)) = m * (n / (m + 1)) + n / (m + 1) := by ring
  rw [hexp] at hd
  unfold fairSize
  generalize n / (m + 1) = q at hd ⊢
  generalize n % (m + 1) = r at hd ⊢
  generalize m * q = t at hd ⊢
  split <;> omega

/-- Dividing the remainder after the first fair slice among one fewer
consumers keeps the same base quotient. -/
lemma drop_div_eq (n : Nat) {m : Nat} (hm : 0 < m) :
    (n - fairSize n (m + 1)) / m = n / (m + 1) := by
  rw [sub_fairSize]
  have hr : n % (m + 1) - 1 < m := by
    have := Nat.mod_lt n (y := m + 1) (by omega)
    omega
  rw [Nat.mul_add_div hm, Nat.div_eq_of_lt hr, Nat.add_zero]

/-- The assigner always produces one slice per consumer. -/
lemma divideSlices_length {α : Type} (P : List α) (M : Nat) :
    (divideSlices P M).length = M := by
  induction M generalizing P with
  | zero => rfl
  | succ m ih => simp [divideSlices, ih]

/-- With at least one consumer, concatenating the slices gives back the full
partition list. -/
lemma divideSlices_flatten {α : Type} (P : List α) (M : Nat) (hM : 0 < M) :
    (divideSlices P M).flatten = P := by
  induction M generalizing P with
  | zero => omega
  | succ m ih =>
    rcases Nat.eq_zero_or_pos m with h0 | hpos
    · subst h0
      simp [divideSlices, fairSize]
    · simp [divideSlices, ih _ hpos, List.take_append_drop]

/-- Every slice has the base size or the base size plus one. -/
lemma divideSlices_sizes {α : Type} (P : List α) (M : Nat) (hM : 0 < M) :
    ∀ s ∈ divideSlices P M,
      s.length = P.length / M ∨ s.length = P.length / M + 1 := by
  induction M generalizing P with
  | zero => omega
  | succ m ih =>
    intro s hs
    simp only [divideSlices, List.mem_cons] at hs
    rcases hs with h | h
    · subst h
      rw [List.length_take]
      have hle := fairSize_le (n := P.length) (m := m + 1) (by omega)
      rw [min_eq_left hle]
      unfold fairSize
      split <;> omega
    · rcases Nat.eq_zero_or_pos m with h0 | hpos
      · subst h0
        simp [divideSlices] at h
      · have := ih (P.drop (fairSize P.length (m + 1))) hpos s h
        rw [List.length_drop, drop_div_eq P.length hpos] at this
        exact this

/-- When the partition list has no duplicates, distinct slices are disjoint. -/
lemma divideSlices_disjoint {α : Type} (P : List α) (M : Nat) (hM : 0 < M)
    (hP : P.Nodup) :
    List.Pairwise List.Disjoint (divideSlices P M) := by
  have h : (divideSlices P M).flatten.Nodup := by
    rw [divideSlices_flatten P M hM]
    exact hP
  exact (List.nodup_flatten.mp h).2

/-- In a run where the context never fires and no attempt succeeds, the claim
loop uses its whole budget: one attempt, preceded by one one-second wait, per
remaining iteration, and it ends by giving up whenever at least one iteration
remained. -/
lemma claimLoopGo_allFail (claim : Nat → ClaimOutcome) (ctxDone : Nat → Bool)
    (topic : String) (partition : Int)
    (hnc : ∀ t, ctxDone t = false) (hfail : ∀ t, claim t ≠ .ok) :
    ∀ gas tries,
      (claimLoopGo claim ctxDone topic partition gas tries).attempts = gas ∧
      (claimLoopGo claim ctxDone topic partition gas tries).events.count .wait1s = gas ∧
      (0 < gas → ∃ e,
        (claimLoopGo claim ctxDone topic partition gas tries).result = .gaveUp e) := by
  intro gas
  induction gas with
  | zero => intro tries; exact ⟨rfl, rfl, by omega⟩
  | succ g ih =>
    intro tries
    have hne := hfail tries
    simp only [claimLoopGo, hnc tries, Bool.false_eq_true, if_false]
    cases hcl : claim tries with
    | ok => exact absurd hcl hne
    | claimedByOther =>
      rcases Nat.eq_zero_or_pos g with h0 | hpos
      · subst h0
        refine ⟨rfl, by simp [List.count_cons], fun _ => ⟨_, rfl⟩⟩
      · rw [if_pos hpos]
        refine ⟨by rw [(ih (tries + 1)).1], ?_, fun _ => ?_⟩
        · simp [List.count_append, List.count_cons, (ih (tries + 1)).2.1]
        · obtain ⟨e, he⟩ := (ih (tries + 1)).2.2 hpos
          exact ⟨e, he⟩
    | otherError msg =>
      rcases Nat.eq_zero_or_pos g with h0 | hpos
      · subst h0
        refine ⟨rfl, by simp [List.count_cons], fun _ => ⟨_, rfl⟩⟩
      · rw [if_pos hpos]
        refine ⟨by rw [(ih (tries + 1)).1], ?_, fun _ => ?_⟩
        · simp [List.count_append, List.count_cons, (ih (tries + 1)).2.1]
        · obtain ⟨e, he⟩ := (ih (tries + 1)).2.2 hpos
          exact ⟨e, he⟩

/-- The claim phase never emits a release event: `ReleasePartition` is only
registered as a deferred call after the loop succeeds. -/
lemma claimLoopGo_count_released (claim : Nat → ClaimOutcome) (ctxDone : Nat → Bool)
    (topic : String) (partition : Int) :
    ∀ gas tries,
      (claimLoopGo claim ctxDone topic partition gas tries).events.count .released = 0 := by
  intro gas
  induction gas with
  | zero => intro tries; rfl
  | succ g ih =>
    intro tries
    cases hnd : ctxDone tries with
    | true => simp [claimLoopGo, hnd]
    | false =>
      cases hcl : claim tries with
      | ok => simp [claimLoopGo, hnd, hcl, List.count_cons]
      | claimedByOther =>
        rcases Nat.eq_zero_or_pos g with h0 | hpos
        · subst h0
          simp [claimLoopGo, hnd, hcl, List.count_cons]
        · simp [claimLoopGo, hnd, hcl, hpos, List.count_append, List.count_cons,
            ih (tries + 1)]
      | otherError msg =>
        rcases Nat.eq_zero_or_pos g with h0 | hpos
        · subst h0
          simp [claimLoopGo, hnd, hcl, List.count_cons]
        · simp [claimLoopGo, hnd, hcl, hpos, List.count_append, List.count_cons,
            ih (tries + 1)]

/-- The claim phase never attempts to open the broker stream. -/
lemma claimLoopGo_filter_open (claim : Nat → ClaimOutcome) (ctxDone : Nat → Bool)
    (topic : String) (partition : Int) :
    ∀ gas tries,
      (claimLoopGo claim ctxDone topic partition gas tries).events.filter Event.isOpen = [] := by
  intro gas
  induction gas with
  | zero => intro tries; rfl
  | succ g ih =>
    intro tries
    cases hnd : ctxDone tries with
    | true => simp [claimLoopGo, hnd]
    | false =>
      cases hcl : claim tries with
      | ok => simp [claimLoopGo, hnd, hcl, List.filter_cons, Event.isOpen]
      | claimedByOther =>
        rcases Nat.eq_zero_or_pos g with h0 | hpos
        · subst h0
          simp [claimLoopGo, hnd, hcl, List.filter_cons, Event.isOpen]
        · simp [claimLoopGo, hnd, hcl, hpos, List.filter_append, List.filter_cons,
            Event.isOpen, ih (tries + 1)]
      | otherError msg =>
        rcases Nat.eq_zero_or_pos g with h0 | hpos
        · subst h0
          simp [claimLoopGo, hnd, hcl, List.filter_cons, Event.isOpen]
        · simp [claimLoopGo, hnd, hcl, hpos, List.filter_append, List.filter_cons,
            Event.isOpen, ih (tries + 1)]

/-- Every send emitted by the claim phase is a plain, unguarded send. -/
lemma claimLoopGo_sends_bare (claim : Nat → ClaimOutcome) (ctxDone : Nat → Bool)
    (topic : String) (partition : Int) :
    ∀ gas tries,
      (((claimLoopGo claim ctxDone topic partition gas tries).events.filter
        Event.isSend).all fun ev => !ev.isGuardedSend) = true := by
  intro gas
  induction gas with
  | zero => intro tries; rfl
  | succ g ih =>
    intro tries
    cases hnd : ctxDone tries with
    | true => simp [claimLoopGo, hnd]
    | false =>
      cases hcl : claim tries with
      | ok => simp [claimLoopGo, hnd, hcl, List.filter_cons, Event.isSend]
      | claimedByOther =>
        rcases Nat.eq_zero_or_pos g with h0 | hpos
        · subst h0
          simp [claimLoopGo, hnd, hcl, List.filter_cons, Event.isSend,
            Event.isGuardedSend]
        · simp [claimLoopGo, hnd, hcl, hpos, List.filter_append, List.all_append,
            List.filter_cons, Event.isSend, ih (tries + 1)]
      | otherError msg =>
        rcases Nat.eq_zero_or_pos g with h0 | hpos
        · subst h0
          simp [claimLoopGo, hnd, hcl, List.filter_cons, Event.isSend,
            Event.isGuardedSend]
        · simp [claimLoopGo, hnd, hcl, hpos, List.filter_append, List.all_append,
            List.filter_cons, Event.isSend, ih (tries + 1)]

/-- A list of stream-open attempts contains no channel sends. -/
lemma openAttempts_filter_send (l : List Int) :
    (l.map Event.openAttempt).filter Event.isSend = [] := by
  induction l with
  | nil => rfl
  | cons a t ih => simp [List.filter_cons, Event.isSend, ih]

/-- A list of stream-open attempts filters to itself under `isOpen`. -/
lemma openAttempts_filter_open (l : List Int) :
    (l.map Event.openAttempt).filter Event.isOpen = l.map Event.openAttempt := by
  induction l with
  | nil => rfl
  | cons a t ih => simp [List.filter_cons, Event.isOpen, ih]

/-- `consumePartition` always attempts the requested offset first. -/
lemma consumePartition_attempts_head (broker : Broker) (initial off : Int) :
    ∃ rest, (consumePartition broker initial off).2 = off :: rest := by
  cases hb : broker off with
  | ok c => exact ⟨[], by simp [consumePartition, hb]⟩
  | error e =>
    by_cases he : e = .errOffsetOutOfRange
    · exact ⟨[if initial = OffsetOldest then OffsetOldest else OffsetNewest],
        by simp [consumePartition, hb, he]⟩
    · exact ⟨[], by simp [consumePartition, hb, he]⟩

/-- Every send emitted by the main forwarding loop is wrapped in a select on
the generation context. -/
lemma mainLoop_sends_guarded (broker : Broker) (initial : Int) (topic : String)
    (partition : Int) :
    ∀ (steps : List LoopStep) (last : Int),
      (((mainLoop broker initial topic partition steps last).events.filter
        Event.isSend).all Event.isGuardedSend) = true := by
  intro steps
  induction steps with
  | nil => intro last; rfl
  | cons step rest ih =>
    intro last
    cases step with
    | ctxDone => rfl
    | errEvent e ctxDuring =>
      cases e with
      | none =>
        cases hre : (consumePartition broker initial last).1 with
        | error e2 => simp [mainLoop, hre, openAttempts_filter_send]
        | ok c =>
          simp [mainLoop, hre, List.filter_append, List.all_append,
            openAttempts_filter_send, ih last]
      | some e2 =>
        cases ctxDuring with
        | true => simp [mainLoop]
        | false =>
          simp [mainLoop, List.filter_cons, Event.isSend, Event.isGuardedSend, ih last]
    | msgEvent off ctxDuring =>
      cases off with
      | none =>
        cases hre : (consumePartition broker initial last).1 with
        | error e2 => simp [mainLoop, hre, openAttempts_filter_send]
        | ok c =>
          simp [mainLoop, hre, List.filter_append, List.all_append,
            openAttempts_filter_send, ih last]
      | some o =>
        cases ctxDuring with
        | true => simp [mainLoop]
        | false =>
          simp [mainLoop, List.filter_cons, Event.isSend, Event.isGuardedSend, ih o]

/-- `topicConsumer` only ever performs plain, unguarded sends. -/
lemma topicConsumerRun_sends_bare (env : TCEnv) :
    (((topicConsumerRun env).events.filter Event.isSend).all
      fun ev => !ev.isGuardedSend) = true := by
  cases hd : env.ctxDone with
  | true => simp [topicConsumerRun, hd]
  | false =>
    cases hp : env.partitionsResult with
    | error e =>
      simp [topicConsumerRun, hd, hp, List.filter_cons, Event.isSend,
        Event.isGuardedSend]
    | ok parts =>
      cases hl : env.leadersResult parts with
      | error e =>
        simp [topicConsumerRun, hd, hp, hl, List.filter_cons, Event.isSend,
          Event.isGuardedSend]
      | ok leaders => simp [topicConsumerRun, hd, hp, hl]

/-- The deferred release handler only ever performs a plain, unguarded send. -/
lemma releaseEvents_sends_bare (topic : String) (partition : Int)
    (relErr : Option GoError) :
    (((releaseEvents topic partition relErr).filter Event.isSend).all
      fun ev => !ev.isGuardedSend) = true := by
  cases relErr with
  | none => rfl
  | some e =>
    simp [releaseEvents, List.filter_cons, Event.isSend, Event.isGuardedSend]

/-- The deferred release handler never opens the broker stream. -/
lemma releaseEvents_filter_open (topic : String) (partition : Int)
    (relErr : Option GoError) :
    (releaseEvents topic partition relErr).filter Event.isOpen = [] := by
  cases relErr with
  | none => rfl
  | some e => simp [releaseEvents, List.filter_cons, Event.isOpen]

/-- A `Close` call that finds the `sync.Once` consumed does nothing and
returns the `AlreadyClosing` sentinel. -/
lemma closeRun_used (s : CGState) (h : s.shutdownUsed = true) :
    closeRun s = (s, some .alreadyClosing, []) := by
  simp [closeRun, h]

/-- Repeated `Close` calls on an already-shut-down group all return the
sentinel and do nothing. -/
lemma closeCalls_used (n : Nat) (s : CGState) (h : s.shutdownUsed = true) :
    closeCalls n s =
      (s, List.replicate n (some GoError.alreadyClosing, ([] : List CloseEvent))) := by
  induction n with
  | zero => rfl
  | succ m ih =>
    simp [closeCalls, closeRun_used s h, ih, List.replicate_succ]

/-- The first `Close` call consumes the `sync.Once`. -/
lemma closeRun_sets_used (s : CGState) (h : s.shutdownUsed = false) :
    (closeRun s).1.shutdownUsed = true := by
  simp [closeRun, h]

/-- Any of the three config conditions makes `Config.Validate` fail. -/
lemma validate_isSome_of_bad (cfg : Config)
    (h : cfg.commitInterval < 0 ∨ cfg.zookeeperTimeout ≤ 0 ∨
      (cfg.initial ≠ OffsetOldest ∧ cfg.initial ≠ OffsetNewest)) :
    ∃ e, cfg.validate = some e := by
  unfold Config.validate
  by_cases hz : cfg.zookeeperTimeout ≤ 0
  · rw [if_pos hz]
    exact ⟨_, rfl⟩
  · rw [if_neg hz]
    by_cases hc : cfg.commitInterval < 0
    · rw [if_pos hc]
      exact ⟨_, rfl⟩
    · rw [if_neg hc]
      by_cases hi : cfg.initial ≠ OffsetOldest ∧ cfg.initial ≠ OffsetNewest
      · rw [if_pos hi]
        exact ⟨_, rfl⟩
      · rcases h with h | h | h
        · exact absurd h hc
        · exact absurd h hz
        · exact absurd h hi

/-- A worker whose claim phase gave up exits at once with only the claim-phase
events: the `ReleasePartition` defer was never registered. -/
lemma partitionConsumerRun_gaveUp (env : PCEnv) (e : GoError)
    (h : (claimLoopFrom env.claim env.ctxDoneClaim env.topic env.partition
      (maxRetries env.cfg).toNat 0).result = .gaveUp e) :
    partitionConsumerRun env =
      ⟨.claimGaveUp,
        (claimLoopFrom env.claim env.ctxDoneClaim env.topic env.partition
          (maxRetries env.cfg).toNat 0).events⟩ := by
  simp only [partitionConsumerRun]
  rw [h]

/-- A worker whose claim phase was cancelled exits at once with only the
claim-phase events. -/
lemma partitionConsumerRun_cancelled (env : PCEnv)
    (h : (claimLoopFrom env.claim env.ctxDoneClaim env.topic env.partition
      (maxRetries env.cfg).toNat 0).result = .cancelled) :
    partitionConsumerRun env =
      ⟨.cancelledDuringClaim,
        (claimLoopFrom env.claim env.ctxDoneClaim env.topic env.partition
          (maxRetries env.cfg).toNat 0).events⟩ := by
  simp only [partitionConsumerRun]
  rw [h]

/-- After a successful claim and offset lookup, the first broker stream open
is attempted exactly at the offset selected from the stored value. -/
lemma partitionConsumerRun_first_open (env : PCEnv) (stored : Int)
    (hclaim : (claimLoopFrom env.claim env.ctxDoneClaim env.topic env.partition
      (maxRetries env.cfg).toNat 0).result = .claimed)
    (hinit : env.initOffsetResult = .ok stored) :
    (partitionConsumerRun env).events.find? Event.isOpen =
      some (.openAttempt (selectNextOffset env.cfg stored)) := by
  obtain ⟨rest, hrest⟩ :=
    consumePartition_attempts_head env.broker env.cfg.initial
      (selectNextOffset env.cfg stored)
  have hclaim2 : (claimLoopGo env.claim env.ctxDoneClaim env.topic env.partition
      (maxRetries env.cfg).toNat 0).result = .claimed := by
    simpa [claimLoopFrom] using hclaim
  have hcp : (claimLoopGo env.claim env.ctxDoneClaim env.topic env.partition
      (maxRetries env.cfg).toNat 0).events.find? Event.isOpen = none := by
    rw [List.find?_eq_none]
    intro x hx
    have h2 := List.filter_eq_nil_iff.mp
      (claimLoopGo_filter_open env.claim env.ctxDoneClaim env.topic env.partition
        ((maxRetries env.cfg).toNat) 0) x hx
    simpa using h2
  cases hop : (consumePartition env.broker env.cfg.initial
      (selectNextOffset env.cfg stored)).1 with
  | error e =>
    simp [partitionConsumerRun, hclaim2, hinit, hop, claimLoopFrom,
      List.find?_append, hcp, hrest, List.find?_cons_of_pos, Event.isOpen]
  | ok c =>
    cases hend : (mainLoop env.broker env.cfg.initial env.topic env.partition
        env.steps (-1)).ended with
    | true =>
      simp [partitionConsumerRun, hclaim2, hinit, hop, hend, claimLoopFrom,
        List.find?_append, hcp, hrest, List.find?_cons_of_pos, Event.isOpen]
    | false =>
      simp [partitionConsumerRun, hclaim2, hinit, hop, hend, claimLoopFrom,
        List.find?_append, hcp, hrest, List.find?_cons_of_pos, Event.isOpen]

/-- A worker whose broker stream open fails (after the out-of-range fallback,
if any) exits without entering the main loop; the deferred release runs. -/
lemma partitionConsumerRun_openFailed (env : PCEnv) (stored : Int) (e : GoError)
    (hclaim : (claimLoopFrom env.claim env.ctxDoneClaim env.topic env.partition
      (maxRetries env.cfg).toNat 0).result = .claimed)
    (hinit : env.initOffsetResult = .ok stored)
    (hopen : (consumePartition env.broker env.cfg.initial
      (selectNextOffset env.cfg stored)).1 = .error e) :
    partitionConsumerRun env =
      ⟨.openFailed,
        (claimLoopFrom env.claim env.ctxDoneClaim env.topic env.partition
          (maxRetries env.cfg).toNat 0).events ++
        ((consumePartition env.broker env.cfg.initial
          (selectNextOffset env.cfg stored)).2.map Event.openAttempt) ++
        [Event.logged] ++
        releaseEvents env.topic env.partition env.releaseError⟩ := by
  simp only [partitionConsumerRun, hclaim, hinit, hopen]

/-- C1: for an ordered instance list `I` and ordered partition list `P`, the
assigner splits `P` into `|I|` contiguous slices whose sizes differ by at most
one and assigns slice `k` to `I[k]`; the union (concatenation) of all
assignments is `P`, assignments of distinct members are pairwise disjoint, and
any two assignment sizes differ by at most one. -/
theorem c1_partition_assigner {α : Type} [DecidableEq α] (I : List String)
    (P : List α) (hI : 0 < I.length) (hP : P.Nodup) (hnd : I.Nodup) :
    (divideSlices P I.length).length = I.length ∧
    (divideSlices P I.length).flatten = P ∧
    List.Pairwise List.Disjoint (divideSlices P I.length) ∧
    (∀ s ∈ divideSlices P I.length, ∀ t ∈ divideSlices P I.length,
      s.length ≤ t.length + 1) ∧
    (∀ k, ∀ hk : k < I.length,
      dividePartitionsBetweenConsumers I P (I.get ⟨k, hk⟩) =
        (divideSlices P I.length).getD k []) := by
  refine ⟨divideSlices_length P I.length, divideSlices_flatten P I.length hI,
    divideSlices_disjoint P I.length hI hP, ?_, ?_⟩
  · intro s hs t ht
    rcases divideSlices_sizes P I.length hI s hs with h1 | h1 <;>
      rcases divideSlices_sizes P I.length hI t ht with h2 | h2 <;> omega
  · intro k hk
    unfold dividePartitionsBetweenConsumers
    rw [List.get_indexOf hnd ⟨k, hk⟩]

/-- C1 witness: two consumers and three partitions. -/
theorem c1_partition_assigner_witness :
    (divideSlices [0, 1, 2] (["inst-a", "inst-b"] : List String).length).length
        = (["inst-a", "inst-b"] : List String).length ∧
    (divideSlices [0, 1, 2] (["inst-a", "inst-b"] : List String).length).flatten
        = [0, 1, 2] ∧
    List.Pairwise List.Disjoint
      (divideSlices [0, 1, 2] (["inst-a", "inst-b"] : List String).length) ∧
    (∀ s ∈ divideSlices [0, 1, 2] (["inst-a", "inst-b"] : List String).length,
      ∀ t ∈ divideSlices [0, 1, 2] (["inst-a", "inst-b"] : List String).length,
      s.length ≤ t.length + 1) ∧
    (∀ k, ∀ hk : k < (["inst-a", "inst-b"] : List String).length,
      dividePartitionsBetweenConsumers ["inst-a", "inst-b"] [0, 1, 2]
          ((["inst-a", "inst-b"] : List String).get ⟨k, hk⟩) =
        (divideSlices [0, 1, 2]
          (["inst-a", "inst-b"] : List String).length).getD k []) :=
  c1_partition_assigner ["inst-a", "inst-b"] ([0, 1, 2] : List Nat)
    (by decide) (by decide) (by decide)

/-- C2 (corrected): with the generation context never firing and every claim
attempt failing, the claim loop makes exactly
`int(ProcessingTimeout / time.Second) + 2` attempts — Go truncating division
of the duration, not its ceiling — each preceded by exactly one one-second
wait, and then gives up. -/
theorem c2_claim_attempt_budget (cfg : Config) (claim : Nat → ClaimOutcome)
    (ctxDone : Nat → Bool) (topic : String) (partition : Int)
    (hnc : ∀ t, ctxDone t = false) (hfail : ∀ t, claim t ≠ .ok) :
    (claimLoopFrom claim ctxDone topic partition (maxRetries cfg).toNat 0).attempts
        = (maxRetries cfg).toNat ∧
    (claimLoopFrom claim ctxDone topic partition (maxRetries cfg).toNat 0).events.count
        .wait1s = (maxRetries cfg).toNat ∧
    (0 ≤ cfg.processingTimeout →
      ((maxRetries cfg).toNat : Int) = Int.tdiv cfg.processingTimeout timeSecond + 2) ∧
    (0 < (maxRetries cfg).toNat → ∃ e,
      (claimLoopFrom claim ctxDone topic partition (maxRetries cfg).toNat 0).result
        = .gaveUp e) := by
  have h := claimLoopGo_allFail claim ctxDone topic partition hnc hfail
    (maxRetries cfg).toNat 0
  refine ⟨?_, ?_, ?_, ?_⟩
  · simpa [claimLoopFrom] using h.1
  · simpa [claimLoopFrom] using h.2.1
  · intro hpt
    have ht : 0 ≤ Int.tdiv cfg.processingTimeout timeSecond :=
      Int.tdiv_nonneg hpt (by norm_num [timeSecond])
    have h2 : 0 ≤ maxRetries cfg := by
      unfold maxRetries
      omega
    calc ((maxRetries cfg).toNat : Int) = maxRetries cfg := Int.toNat_of_nonneg h2
      _ = Int.tdiv cfg.processingTimeout timeSecond + 2 := rfl
  · intro hgt
    obtain ⟨e, he⟩ := h.2.2 hgt
    exact ⟨e, by simpa [claimLoopFrom] using he⟩

/-- C2 witness: zero processing timeout, always-contended claim: 2 attempts. -/
theorem c2_claim_attempt_budget_witness :
    (claimLoopFrom claimAlwaysOther noCancel "t" 0 (maxRetries cfg0).toNat 0).attempts
        = (maxRetries cfg0).toNat ∧
    (claimLoopFrom claimAlwaysOther noCancel "t" 0 (maxRetries cfg0).toNat 0).events.count
        .wait1s = (maxRetries cfg0).toNat ∧
    (0 ≤ cfg0.processingTimeout →
      ((maxRetries cfg0).toNat : Int) = Int.tdiv cfg0.processingTimeout timeSecond + 2) ∧
    (0 < (maxRetries cfg0).toNat → ∃ e,
      (claimLoopFrom claimAlwaysOther noCancel "t" 0 (maxRetries cfg0).toNat 0).result
        = .gaveUp e) :=
  c2_claim_attempt_budget cfg0 claimAlwaysOther noCancel "t" 0
    (fun _ => rfl) (fun t => by simp [claimAlwaysOther])

/-- C2 counterexample: `ProcessingTimeout` = 1.5 s yields 3 attempts
(`int(1.5s/1s) + 2 = 3`), not the claimed `⌈1.5⌉ + 2 = 4`. -/
theorem c2_ceiling_counterexample :
    (claimLoopFrom claimAlwaysErr noCancel "t" 0 (maxRetries cfg15).toNat 0).attempts
        = 3 ∧
    ceilSeconds cfg15.processingTimeout + 2 = 4 ∧
    ¬ (((claimLoopFrom claimAlwaysErr noCancel "t" 0
        (maxRetries cfg15).toNat 0).attempts : Int)
        = ceilSeconds cfg15.processingTimeout + 2) := by
  decide

/-- C3: the first `Close` call performs, in order: stopper closed under the
mutex, top-level wait-group joined, offset manager closed, instance
deregistered, broker consumer closed, `messages` closed, `errors` closed,
instance handle nilled, metadata-store client closed last; each channel is
closed exactly once and only after the wait-group join. -/
theorem c3_close_shutdown_order (s : CGState) (h : s.shutdownUsed = false) :
    (closeRun s).2.2 =
      [.stopperClosedUnderMutex, .waitGroupJoined, .offsetManagerClosed,
       .instanceDeregistered, .brokerConsumerClosed, .messagesChanClosed,
       .errorsChanClosed, .instanceSetNil, .kazooClosed] ∧
    (closeRun s).2.2.count .messagesChanClosed = 1 ∧
    (closeRun s).2.2.count .errorsChanClosed = 1 ∧
    (closeRun s).2.2.getLast? = some .kazooClosed ∧
    (closeRun s).2.2.indexOf CloseEvent.waitGroupJoined <
      (closeRun s).2.2.indexOf CloseEvent.messagesChanClosed := by
  have ht : (closeRun s).2.2 =
      [.stopperClosedUnderMutex, .waitGroupJoined, .offsetManagerClosed,
       .instanceDeregistered, .brokerConsumerClosed, .messagesChanClosed,
       .errorsChanClosed, .instanceSetNil, .kazooClosed] := by
    simp [closeRun, h]
  rw [ht]
  decide

/-- C3 witness: a fresh consumer-group state. -/
theorem c3_close_shutdown_order_witness :
    (closeRun cgFresh).2.2 =
      [.stopperClosedUnderMutex, .waitGroupJoined, .offsetManagerClosed,
       .instanceDeregistered, .brokerConsumerClosed, .messagesChanClosed,
       .errorsChanClosed, .instanceSetNil, .kazooClosed] ∧
    (closeRun cgFresh).2.2.count .messagesChanClosed = 1 ∧
    (closeRun cgFresh).2.2.count .errorsChanClosed = 1 ∧
    (closeRun cgFresh).2.2.getLast? = some .kazooClosed ∧
    (closeRun cgFresh).2.2.indexOf CloseEvent.waitGroupJoined <
      (closeRun cgFresh).2.2.indexOf CloseEvent.messagesChanClosed :=
  c3_close_shutdown_order cgFresh rfl

/-- C4: of `n > 1` `Close` calls, only the first performs the shutdown work;
every later call emits no events, returns the `AlreadyClosing` sentinel, and
leaves the state produced by the first call unchanged. -/
theorem c4_close_idempotent (s : CGState) (n : Nat) (h : s.shutdownUsed = false)
    (hn : 1 < n) :
    (closeCalls n s).2 =
      ((closeRun s).2.1, (closeRun s).2.2) ::
        List.replicate (n - 1) (some GoError.alreadyClosing, ([] : List CloseEvent)) ∧
    (closeCalls n s).1 = (closeRun s).1 := by
  obtain ⟨m, rfl⟩ : ∃ m, n = m + 1 := ⟨n - 1, by omega⟩
  have hused := closeRun_sets_used s h
  constructor
  · simp [closeCalls, closeCalls_used m (closeRun s).1 hused]
  · simp [closeCalls, closeCalls_used m (closeRun s).1 hused]

/-- C4 witness: three `Close` calls on a fresh state. -/
theorem c4_close_idempotent_witness :
    (closeCalls 3 cgFresh).2 =
      ((closeRun cgFresh).2.1, (closeRun cgFresh).2.2) ::
        List.replicate 2 (some GoError.alreadyClosing, ([] : List CloseEvent)) ∧
    (closeCalls 3 cgFresh).1 = (closeRun cgFresh).1 :=
  c4_close_idempotent cgFresh 3 rfl (by decide)

/-- C5 (corrected): the main-loop forwards to `messages`/`errors` do sit
inside a select on the generation context, but the error sends in
`topicConsumer` and the claim-failure and release-failure sends in
`partitionConsumer` are plain channel sends with no select. -/
theorem c5_send_guardedness (tc : TCEnv) (claim : Nat → ClaimOutcome)
    (ctxDone : Nat → Bool) (topic : String) (partition : Int) (gas tries : Nat)
    (relErr : Option GoError) (broker : Broker) (initial last : Int)
    (steps : List LoopStep) :
    (((topicConsumerRun tc).events.filter Event.isSend).all
        fun ev => !ev.isGuardedSend) = true ∧
    (((claimLoopGo claim ctxDone topic partition gas tries).events.filter
        Event.isSend).all fun ev => !ev.isGuardedSend) = true ∧
    (((releaseEvents topic partition relErr).filter Event.isSend).all
        fun ev => !ev.isGuardedSend) = true ∧
    (((mainLoop broker initial topic partition steps last).events.filter
        Event.isSend).all Event.isGuardedSend) = true :=
  ⟨topicConsumerRun_sends_bare tc,
    claimLoopGo_sends_bare claim ctxDone topic partition gas tries,
    releaseEvents_sends_bare topic partition relErr,
    mainLoop_sends_guarded broker initial topic partition steps last⟩

/-- C5 counterexample: when the partition-list query fails, `topicConsumer`
sends the `ConsumerError` on `cg.errors` outside any select on the generation
context (consumer_group.go lines 428-432). -/
theorem c5_bare_send_counterexample :
    (topicConsumerRun tcEnvZkErr).events =
      [Event.sendErr false "t" (-1) (.other "zk down"), Event.cancelCalled] ∧
    Event.isGuardedSend (.sendErr false "t" (-1) (.other "zk down")) = false :=
  ⟨rfl, rfl⟩

/-- C6: `JoinConsumerGroup` returns an error before invoking any constructor
(hence before any metadata-store or broker connection) and before spawning the
top-level goroutine whenever the group name is empty, the topic list is empty,
the endpoint list is empty, `Offsets.CommitInterval` is negative,
`Zookeeper.Timeout` is not positive, or `Offsets.Initial` is neither
`OffsetOldest` nor `OffsetNewest`. -/
theorem c6_join_validation (name : String) (topics zookeeper : List String)
    (cfg : Config) (cc : Nat) (cr : Except GoError Unit)
    (h : name = "" ∨ topics = [] ∨ zookeeper = [] ∨ cfg.commitInterval < 0 ∨
      cfg.zookeeperTimeout ≤ 0 ∨
      (cfg.initial ≠ OffsetOldest ∧ cfg.initial ≠ OffsetNewest)) :
    (joinConsumerGroup name topics zookeeper (some cfg) cc cr).failed = true ∧
    (joinConsumerGroup name topics zookeeper (some cfg) cc cr).ioPerformed = false ∧
    (joinConsumerGroup name topics zookeeper (some cfg) cc cr).goroutineSpawned
      = false := by
  by_cases h1 : name = ""
  · simp [joinConsumerGroup, h1, JoinOutcome.failed]
  · by_cases h2 : topics.isEmpty
    · simp [joinConsumerGroup, h1, h2, JoinOutcome.failed]
    · by_cases h3 : zookeeper.isEmpty
      · simp [joinConsumerGroup, h1, h2, h3, JoinOutcome.failed]
      · have hb : cfg.commitInterval < 0 ∨ cfg.zookeeperTimeout ≤ 0 ∨
            (cfg.initial ≠ OffsetOldest ∧ cfg.initial ≠ OffsetNewest) := by
          rcases h with h | h | h | h | h | h
          · exact absurd h h1
          · exact absurd h (by simpa [List.isEmpty_iff] using h2)
          · exact absurd h (by simpa [List.isEmpty_iff] using h3)
          · exact Or.inl h
          · exact Or.inr (Or.inl h)
          · exact Or.inr (Or.inr h)
        obtain ⟨e, he⟩ := validate_isSome_of_bad cfg hb
        simp [joinConsumerGroup, h1, h2, h3, he, JoinOutcome.failed]

/-- C6 witness: a negative commit interval fails synchronously. -/
theorem c6_join_validation_witness :
    (joinConsumerGroup "g" ["t"] ["zk1"] (some cfgBadInterval) 0 (.ok ())).failed
      = true ∧
    (joinConsumerGroup "g" ["t"] ["zk1"] (some cfgBadInterval) 0 (.ok ())).ioPerformed
      = false ∧
    (joinConsumerGroup "g" ["t"] ["zk1"] (some cfgBadInterval) 0
      (.ok ())).goroutineSpawned = false :=
  c6_join_validation "g" ["t"] ["zk1"] cfgBadInterval 0 (.ok ())
    (Or.inr (Or.inr (Or.inr (Or.inl (by decide)))))

/-- C7: in the claim phase, a non-final claimed-by-other failure retries
silently (no log entry); any other non-final failure logs and retries; a final
failed attempt (of any kind) logs, performs a plain send of a `ConsumerError`
carrying the real topic and partition on `errors`, and the worker exits with
no `ReleasePartition` call. -/
theorem c7_claim_error_policy (claim : Nat → ClaimOutcome) (ctxDone : Nat → Bool)
    (topic : String) (partition : Int) (m : String) (gas tries : Nat) (env : PCEnv)
    (hnd : ctxDone tries = false) :
    (claim tries = .claimedByOther → 0 < gas →
      claimLoopGo claim ctxDone topic partition (gas + 1) tries =
        ⟨(claimLoopGo claim ctxDone topic partition gas (tries + 1)).result,
         (claimLoopGo claim ctxDone topic partition gas (tries + 1)).attempts + 1,
         [Event.wait1s, Event.claimAttempt tries] ++
           (claimLoopGo claim ctxDone topic partition gas (tries + 1)).events⟩) ∧
    (claim tries = .otherError m → 0 < gas →
      claimLoopGo claim ctxDone topic partition (gas + 1) tries =
        ⟨(claimLoopGo claim ctxDone topic partition gas (tries + 1)).result,
         (claimLoopGo claim ctxDone topic partition gas (tries + 1)).attempts + 1,
         [Event.wait1s, Event.claimAttempt tries, Event.logged] ++
           (claimLoopGo claim ctxDone topic partition gas (tries + 1)).events⟩) ∧
    (∀ outcome : ClaimOutcome, claim tries = outcome → outcome ≠ .ok →
      claimLoopGo claim ctxDone topic partition 1 tries =
        ⟨.gaveUp outcome.err, 1,
         [Event.wait1s, Event.claimAttempt tries, Event.logged,
          Event.sendErr false topic partition outcome.err]⟩) ∧
    (∀ e, (claimLoopFrom env.claim env.ctxDoneClaim env.topic env.partition
        (maxRetries env.cfg).toNat 0).result = .gaveUp e →
      (partitionConsumerRun env).exit = .claimGaveUp ∧
      (partitionConsumerRun env).events.count .released = 0) := by
  refine ⟨?_, ?_, ?_, ?_⟩
  · intro hcl hgas
    simp [claimLoopGo, hnd, hcl, hgas]
  · intro hcl hgas
    simp [claimLoopGo, hnd, hcl, hgas]
  · intro outcome hcl hok
    cases outcome with
    | ok => exact absurd rfl hok
    | claimedByOther => simp [claimLoopGo, hnd, hcl, ClaimOutcome.err]
    | otherError mm => simp [claimLoopGo, hnd, hcl, ClaimOutcome.err]
  · intro e he
    rw [partitionConsumerRun_gaveUp env e he]
    refine ⟨rfl, ?_⟩
    simpa [claimLoopFrom] using
      claimLoopGo_count_released env.claim env.ctxDoneClaim env.topic env.partition
        ((maxRetries env.cfg).toNat) 0

/-- C7 witness: the three scenarios at concrete oracles, plus an exhausted
claim phase that exits without releasing. -/
theorem c7_claim_error_policy_witness :
    (claimLoopGo claimAlwaysOther noCancel "t" 0 2 0 =
      ⟨(claimLoopGo claimAlwaysOther noCancel "t" 0 1 1).result,
       (claimLoopGo claimAlwaysOther noCancel "t" 0 1 1).attempts + 1,
       [Event.wait1s, Event.claimAttempt 0] ++
         (claimLoopGo claimAlwaysOther noCancel "t" 0 1 1).events⟩) ∧
    (claimLoopGo claimAlwaysErr noCancel "t" 0 2 0 =
      ⟨(claimLoopGo claimAlwaysErr noCancel "t" 0 1 1).result,
       (claimLoopGo claimAlwaysErr noCancel "t" 0 1 1).attempts + 1,
       [Event.wait1s, Event.claimAttempt 0, Event.logged] ++
         (claimLoopGo claimAlwaysErr noCancel "t" 0 1 1).events⟩) ∧
    (claimLoopGo claimAlwaysErr noCancel "t" 0 1 0 =
      ⟨.gaveUp (ClaimOutcome.otherError "boom").err, 1,
       [Event.wait1s, Event.claimAttempt 0, Event.logged,
        Event.sendErr false "t" 0 (ClaimOutcome.otherError "boom").err]⟩) ∧
    ((partitionConsumerRun pcEnvGaveUp).exit = .claimGaveUp ∧
     (partitionConsumerRun pcEnvGaveUp).events.count .released = 0) :=
  ⟨(c7_claim_error_policy claimAlwaysOther noCancel "t" 0 "boom" 1 0 pcEnvGaveUp
      rfl).1 rfl (by decide),
   (c7_claim_error_policy claimAlwaysErr noCancel "t" 0 "boom" 1 0 pcEnvGaveUp
      rfl).2.1 rfl (by decide),
   (c7_claim_error_policy claimAlwaysErr noCancel "t" 0 "boom" 0 0 pcEnvGaveUp
      rfl).2.2.1 (.otherError "boom") rfl (by decide),
   (c7_claim_error_policy claimAlwaysErr noCancel "t" 0 "boom" 0 0 pcEnvGaveUp
      rfl).2.2.2 (GoError.other "boom") (by decide)⟩

/-- C8: `consumePartition` opens the stream at `nextOffset`; if and only if
the broker returns the offset-out-of-range sentinel it retries exactly once,
at `OffsetOldest` when `Offsets.Initial` is `OffsetOldest` and at
`OffsetNewest` otherwise; any other error — or failure of the single retry —
is returned, and a worker whose open fails exits. -/
theorem c8_out_of_range_retry (broker : Broker) (initial off : Int)
    (env : PCEnv) (stored : Int) :
    (∀ c, broker off = .ok c →
      consumePartition broker initial off = (.ok c, [off])) ∧
    (∀ e, broker off = .error e → e ≠ .errOffsetOutOfRange →
      consumePartition broker initial off = (.error e, [off])) ∧
    (broker off = .error .errOffsetOutOfRange →
      consumePartition broker initial off =
        (broker (if initial = OffsetOldest then OffsetOldest else OffsetNewest),
         [off, if initial = OffsetOldest then OffsetOldest else OffsetNewest])) ∧
    ((consumePartition broker initial off).2.length = 2 ↔
      broker off = .error .errOffsetOutOfRange) ∧
    (env.initOffsetResult = .ok stored →
      (claimLoopFrom env.claim env.ctxDoneClaim env.topic env.partition
        (maxRetries env.cfg).toNat 0).result = .claimed →
      ∀ e, (consumePartition env.broker env.cfg.initial
          (selectNextOffset env.cfg stored)).1 = .error e →
        (partitionConsumerRun env).exit = .openFailed) := by
  refine ⟨?_, ?_, ?_, ?_, ?_⟩
  · intro c hb
    simp [consumePartition, hb]
  · intro e hb hne
    simp [consumePartition, hb, hne]
  · intro hb
    simp [consumePartition, hb]
  · cases hb : broker off with
    | ok c => simp [consumePartition, hb]
    | error e =>
      by_cases he : e = .errOffsetOutOfRange
      · subst he
        simp [consumePartition, hb]
      · simp [consumePartition, hb, he]
  · intro hinit hclaim e hopen
    rw [partitionConsumerRun_openFailed env stored e hclaim hinit hopen]

/-- C8 witness: an out-of-range open at offset 5 retried once at the oldest
offset, and a worker that exits when its open fails. -/
theorem c8_out_of_range_retry_witness :
    ((consumePartition brokerOor5 OffsetOldest 5).2.length = 2 ↔
      brokerOor5 5 = .error .errOffsetOutOfRange) ∧
    (consumePartition brokerOor5 OffsetOldest 5 =
      (brokerOor5 (if OffsetOldest = OffsetOldest then OffsetOldest else OffsetNewest),
       [5, if OffsetOldest = OffsetOldest then OffsetOldest else OffsetNewest])) ∧
    (partitionConsumerRun pcEnvOpenFail).exit = .openFailed :=
  ⟨(c8_out_of_range_retry brokerOor5 OffsetOldest 5 pcEnvOpenFail 7).2.2.2.1,
   (c8_out_of_range_retry brokerOor5 OffsetOldest 5 pcEnvOpenFail 7).2.2.1
     (by decide),
   (c8_out_of_range_retry brokerDown OffsetOldest 7 pcEnvOpenFail 7).2.2.2.2
     rfl (by decide) (GoError.other "broker down") (by decide)⟩

/-- C9: the fallback to `Offsets.Initial` happens only for a strictly
negative stored offset; a stored offset of exactly 0 is used as the resume
position, and the first broker open is attempted at the selected offset. -/
theorem c9_zero_offset_resume (env : PCEnv) (stored : Int)
    (hinit : env.initOffsetResult = .ok stored)
    (hclaim : (claimLoopFrom env.claim env.ctxDoneClaim env.topic env.partition
      (maxRetries env.cfg).toNat 0).result = .claimed) :
    (0 ≤ stored → selectNextOffset env.cfg stored = stored) ∧
    (stored < 0 → selectNextOffset env.cfg stored = env.cfg.initial) ∧
    (partitionConsumerRun env).events.find? Event.isOpen =
      some (.openAttempt (selectNextOffset env.cfg stored)) := by
  refine ⟨?_, ?_, partitionConsumerRun_first_open env stored hclaim hinit⟩
  · intro h0
    simp [selectNextOffset, h0]
  · intro h0
    have hneg : ¬ (0 ≤ stored) := by omega
    simp [selectNextOffset, hneg]

/-- C9 witness: a stored offset of exactly 0 opens the stream at 0. -/
theorem c9_zero_offset_resume_witness :
    (0 ≤ (0 : Int) → selectNextOffset pcEnvResume0.cfg 0 = 0) ∧
    ((0 : Int) < 0 → selectNextOffset pcEnvResume0.cfg 0 = pcEnvResume0.cfg.initial) ∧
    (partitionConsumerRun pcEnvResume0).events.find? Event.isOpen =
      some (.openAttempt (selectNextOffset pcEnvResume0.cfg 0)) :=
  c9_zero_offset_resume pcEnvResume0 0 rfl (by decide)

/-- C10: with the earlier checks passing and more than one constructor in the
variadic parameter, `JoinConsumerGroup` returns the
"more than one cgConstructor is not supported" error with a nil
`ConsumerGroup`, invokes no constructor, and spawns no goroutine. -/
theorem c10_multiple_constructors (name : String) (topics zookeeper : List String)
    (cfg : Config) (cc : Nat) (cr : Except GoError Unit)
    (h1 : name ≠ "") (h2 : topics ≠ []) (h3 : zookeeper ≠ [])
    (h4 : cfg.validate = none) (h5 : 2 ≤ cc) :
    joinConsumerGroup name topics zookeeper (some cfg) cc cr =
      ⟨.error (.other "more than one cgConstructor is not supported"),
        false, false⟩ := by
  obtain ⟨m, rfl⟩ : ∃ m, cc = m + 2 := ⟨cc - 2, by omega⟩
  simp [joinConsumerGroup, List.isEmpty_iff, h1, h2, h3, h4]

/-- C10 witness: two constructors with otherwise valid arguments. -/
theorem c10_multiple_constructors_witness :
    joinConsumerGroup "g" ["t"] ["z"] (some NewConfig) 2 (.ok ()) =
      ⟨.error (.other "more than one cgConstructor is not supported"),
        false, false⟩ :=
  c10_multiple_constructors "g" ["t"] ["z"] NewConfig 2 (.ok ())
    (by decide) (by decide) (by decide) (by decide) (by decide)

end FTKafka
